import Mathlib

/-!
Verification of the ClarityOS Bridge server core (`src/lib/server.ts`).

The development shallowly embeds the bridge server's data model and the
operations exercised by the specification: the eval implicit-return
heuristic, the command dispatcher (`executeCommand`), the connection
handler (`handleConnection`, modelled as `handleData` over one parsed
data event), the output ring buffer (the wrapped `appendLine`), the
subscriber registry, the broadcaster, and the server start / bind-error
logging.

JavaScript values flowing through the dispatcher are modelled by
`JValue` (JSON values; `undefined` is represented by absence, i.e.
`Option.none`, where it can occur).  A thrown JavaScript exception is
modelled by `Except.error` carrying the message string, so a function of
type `Except String _` is one that can throw past its own boundary.
External collaborators (the host JS engine backing `eval`, the webview
manager, the config registry, the `status` snapshot) are parameters of a
`Collab` structure, matching the spec's "collaborator interfaces
consumed by the core".
-/

/-- JSON-style runtime values (the payloads of requests, results and
responses). Object fields keep insertion order, as in JavaScript. -/
inductive JValue where
  | null : JValue
  | bool : Bool → JValue
  | num : Int → JValue
  | str : String → JValue
  | arr : List JValue → JValue
  | obj : List (String × JValue) → JValue

mutual

/-- Decidable equality of `JValue`s (spelled out because automatic
derivation does not handle the nested occurrences). -/
def decEqJV : (a b : JValue) → Decidable (a = b)
  | .null, .null => isTrue rfl
  | .null, .bool _ => isFalse (fun h => JValue.noConfusion h)
  | .null, .num _ => isFalse (fun h => JValue.noConfusion h)
  | .null, .str _ => isFalse (fun h => JValue.noConfusion h)
  | .null, .arr _ => isFalse (fun h => JValue.noConfusion h)
  | .null, .obj _ => isFalse (fun h => JValue.noConfusion h)
  | .bool _, .null => isFalse (fun h => JValue.noConfusion h)
  | .bool a, .bool b =>
      if h : a = b then isTrue (by rw [h]) else isFalse (fun hh => h (by injection hh))
  | .bool _, .num _ => isFalse (fun h => JValue.noConfusion h)
  | .bool _, .str _ => isFalse (fun h => JValue.noConfusion h)
  | .bool _, .arr _ => isFalse (fun h => JValue.noConfusion h)
  | .bool _, .obj _ => isFalse (fun h => JValue.noConfusion h)
  | .num _, .null => isFalse (fun h => JValue.noConfusion h)
  | .num _, .bool _ => isFalse (fun h => JValue.noConfusion h)
  | .num a, .num b =>
      if h : a = b then isTrue (by rw [h]) else isFalse (fun hh => h (by injection hh))
  | .num _, .str _ => isFalse (fun h => JValue.noConfusion h)
  | .num _, .arr _ => isFalse (fun h => JValue.noConfusion h)
  | .num _, .obj _ => isFalse (fun h => JValue.noConfusion h)
  | .str _, .null => isFalse (fun h => JValue.noConfusion h)
  | .str _, .bool _ => isFalse (fun h => JValue.noConfusion h)
  | .str _, .num _ => isFalse (fun h => JValue.noConfusion h)
  | .str a, .str b =>
      if h : a = b then isTrue (by rw [h]) else isFalse (fun hh => h (by injection hh))
  | .str _, .arr _ => isFalse (fun h => JValue.noConfusion h)
  | .str _, .obj _ => isFalse (fun h => JValue.noConfusion h)
  | .arr _, .null => isFalse (fun h => JValue.noConfusion h)
  | .arr _, .bool _ => isFalse (fun h => JValue.noConfusion h)
  | .arr _, .num _ => isFalse (fun h => JValue.noConfusion h)
  | .arr _, .str _ => isFalse (fun h => JValue.noConfusion h)
  | .arr xs, .arr ys =>
      match decEqJL xs ys with
      | isTrue h => isTrue (by rw [h])
      | isFalse h => isFalse (fun hh => h (by injection hh))
  | .arr _, .obj _ => isFalse (fun h => JValue.noConfusion h)
  | .obj _, .null => isFalse (fun h => JValue.noConfusion h)
  | .obj _, .bool _ => isFalse (fun h => JValue.noConfusion h)
  | .obj _, .num _ => isFalse (fun h => JValue.noConfusion h)
  | .obj _, .str _ => isFalse (fun h => JValue.noConfusion h)
  | .obj _, .arr _ => isFalse (fun h => JValue.noConfusion h)
  | .obj fs, .obj gs =>
      match decEqJF fs gs with
      | isTrue h => isTrue (by rw [h])
      | isFalse h => isFalse (fun hh => h (by injection hh))

/-- Decidable equality of `JValue` lists. -/
def decEqJL : (a b : List JValue) → Decidable (a = b)
  | [], [] => isTrue rfl
  | [], _ :: _ => isFalse (fun h => List.noConfusion h)
  | _ :: _, [] => isFalse (fun h => List.noConfusion h)
  | x :: xs, y :: ys =>
      match decEqJV x y, decEqJL xs ys with
      | isTrue h1, isTrue h2 => isTrue (by rw [h1, h2])
      | isFalse h1, _ => isFalse (fun hh => h1 (by injection hh))
      | _, isFalse h2 => isFalse (fun hh => h2 (by injection hh))

/-- Decidable equality of `JValue` field lists. -/
def decEqJF : (a b : List (String × JValue)) → Decidable (a = b)
  | [], [] => isTrue rfl
  | [], _ :: _ => isFalse (fun h => List.noConfusion h)
  | _ :: _, [] => isFalse (fun h => List.noConfusion h)
  | (k, v) :: fs, (l, w) :: gs =>
      if hk : k = l then
        match decEqJV v w, decEqJF fs gs with
        | isTrue h1, isTrue h2 => isTrue (by rw [hk, h1, h2])
        | isFalse h1, _ =>
            isFalse (fun hh => by
              injection hh with ha hb
              exact h1 (congrArg Prod.snd ha))
        | _, isFalse h2 =>
            isFalse (fun hh => by
              injection hh with ha hb
              exact h2 hb)
      else
        isFalse (fun hh => by
          injection hh with ha hb
          exact hk (congrArg Prod.fst ha))

end

instance : DecidableEq JValue := decEqJV

/-- JavaScript truthiness of a `JValue` (`!v` in the source is
`!(jsTruthyV v)`). Arrays and objects are always truthy. -/
def jsTruthyV : JValue → Bool
  | .null => false
  | .bool b => b
  | .num n => n != 0
  | .str s => s != ""
  | .arr _ => true
  | .obj _ => true

/-- Truthiness of a possibly-absent value (`undefined` is falsy). -/
def jsTruthy : Option JValue → Bool
  | none => false
  | some v => jsTruthyV v

/-- Numeric coercion used by `Array.prototype.slice`'s argument.
Numbers map to themselves; `true`/`false` to 1/0; other values (whose
JS coercion would be `NaN`, which `slice` treats as 0) map to 0.  Every
claim exercises numeric or absent `lines` parameters, where this is
exact. -/
def jsToNum : JValue → Int
  | .num n => n
  | .bool true => 1
  | .bool false => 0
  | _ => 0

/-- String coercion used in template literals.  Arrays and objects use
a simplified rendering (all claims interpolate strings only, where this
is exact). -/
def jsToString : JValue → String
  | .str s => s
  | .num n => toString n
  | .bool true => "true"
  | .bool false => "false"
  | .null => "null"
  | .arr _ => ""
  | .obj _ => "[object Object]"

/-- JSON string escaping for one character (quote, backslash and
newline; further control-character escapes are elided — no claim
inspects serialized log text). -/
def escapeChar (c : Char) : String :=
  if c = '"' then "\\\""
  else if c = '\\' then "\\\\"
  else if c = '\n' then "\\n"
  else String.singleton c

/-- JSON string escaping. -/
def escapeJson (s : String) : String :=
  String.join (s.toList.map escapeChar)

mutual

/-- `JSON.stringify` over `JValue`. -/
def jsonStringify : JValue → String
  | .null => "null"
  | .bool true => "true"
  | .bool false => "false"
  | .num n => toString n
  | .str s => "\"" ++ escapeJson s ++ "\""
  | .arr xs => "[" ++ jsonStringifyList xs ++ "]"
  | .obj fs => "\x7b" ++ jsonStringifyFields fs ++ "\x7d"

/-- Comma-joined serialization of array elements. -/
def jsonStringifyList : List JValue → String
  | [] => ""
  | [x] => jsonStringify x
  | x :: y :: xs => jsonStringify x ++ "," ++ jsonStringifyList (y :: xs)

/-- Comma-joined serialization of object fields. -/
def jsonStringifyFields : List (String × JValue) → String
  | [] => ""
  | [(k, v)] => "\"" ++ escapeJson k ++ "\":" ++ jsonStringify v
  | (k, v) :: f :: fs =>
      "\"" ++ escapeJson k ++ "\":" ++ jsonStringify v ++ "," ++ jsonStringifyFields (f :: fs)

end

/-- JS word characters `[A-Za-z0-9_]`, the alphabet of the regex `\w`
(and hence of the `\b` boundaries in `/\breturn\b/`). -/
def isWordChar (c : Char) : Bool :=
  c.isAlphanum || c == '_'

/-- The characters of the keyword `return`. -/
def retChars : List Char := ['r', 'e', 't', 'u', 'r', 'n']

/-- `some rest` when `p` is an initial run of `l`, with `rest` the
remainder. -/
def stripLead : List Char → List Char → Option (List Char)
  | [], l => some l
  | _ :: _, [] => none
  | p :: ps, c :: cs => if p = c then stripLead ps cs else none

/-- The `\b` boundary after a match: end of input or a non-word
character. -/
def boundaryAfter : List Char → Bool
  | [] => true
  | c :: _ => !isWordChar c

/-- `true` when `l` starts with `return` followed by a `\b` boundary. -/
def startsRet (l : List Char) : Bool :=
  match stripLead retChars l with
  | some rest => boundaryAfter rest
  | none => false

/-- Scanner for `/\breturn\b/.test`: `prev` records whether the
character just before the current position is a word character (false
at the start of the string). -/
def hasWordReturnAux : Bool → List Char → Bool
  | _, [] => false
  | prev, c :: rest => (!prev && startsRet (c :: rest)) || hasWordReturnAux (isWordChar c) rest

/-- `/\breturn\b/.test(code)` — `hasExplicitReturn` in the source. -/
def hasWordReturn (code : String) : Bool :=
  hasWordReturnAux false code.toList

/-- `code.includes(c)` for a single character `c`. -/
def containsChar (s : String) (c : Char) : Bool :=
  s.toList.contains c

/-- The implicit-return condition of the `eval` handler, evaluated on
the already-trimmed code: `!hasExplicitReturn && isSingleExpression`
where `isSingleExpression = !code.includes('\n') && !code.includes(';')`. -/
def evalWraps (code : String) : Bool :=
  !hasWordReturn code && (!containsChar code '\n' && !containsChar code ';')

/-- `String.prototype.trim`: strip leading and trailing whitespace
(whitespace per `Char.isWhitespace`; JS also strips a few rarer Unicode
space characters, which no claim exercises).  Implemented over the
character list so that it evaluates by kernel reduction. -/
def jsTrim (s : String) : String :=
  ⟨((s.toList.dropWhile Char.isWhitespace).reverse.dropWhile Char.isWhitespace).reverse⟩

/-- The `eval` handler's preprocessing: trim the submitted code, then
wrap it as `return (<code>)` when the single-expression heuristic
fires. The resulting string is what is handed to `AsyncFunction`. -/
def evalPreprocess (code : String) : String :=
  if evalWraps (jsTrim code) then "return (" ++ jsTrim code ++ ")" else jsTrim code

/-- The wrapped `outputChannel.appendLine`: push the line, then drop the
oldest entry (`shift`) once the length exceeds 1000. -/
def appendOutput (hist : List String) (line : String) : List String :=
  if 1000 < (hist ++ [line]).length then (hist ++ [line]).drop 1 else hist ++ [line]

/-- `Array.prototype.slice(start)`: a negative start counts from the
end, clamped at 0; a positive start is clamped at the length. -/
def jsSlice {α : Type} (xs : List α) (start : Int) : List α :=
  xs.drop (if start < 0 then (max ((xs.length : Int) + start) 0).toNat
           else (min start (xs.length : Int)).toNat)

/-- Specification-side helper: the last `k` elements of a list, in
order. -/
def lastN {α : Type} (k : Nat) (l : List α) : List α :=
  l.drop (l.length - k)

/-- `Set.prototype.add` on the insertion-ordered element list: append
the element when absent, no-op when present. -/
def setAdd (s : List JValue) (u : JValue) : List JValue :=
  if u ∈ s then s else s ++ [u]

/-- `Set.prototype.delete` on the insertion-ordered element list:
remove the element (a JS `Set` never holds duplicates, so removing
every structural copy coincides with removing the entry). -/
def setDel (s : List JValue) (u : JValue) : List JValue :=
  s.filter (fun v => decide (v ≠ u))

/-- A parsed request: `{ method, params }`.  `params` is `none` when
the request object carries no `params` field (`cmdParams` is then
`undefined` and any property access on it throws). -/
structure Request where
  method : String
  params : Option (List (String × JValue))
  deriving DecidableEq

/-- The mutable state owned by the bridge server closure: the
subscriber set (insertion-ordered, duplicate-free) and the output
history ring. -/
structure BridgeState where
  subscribers : List JValue
  outputHistory : List String
  deriving DecidableEq

/-- External collaborators of the dispatcher.  `hostEval` is the host
JS engine running the preprocessed eval code (`AsyncFunction`); an
`Except.error` is a thrown exception. -/
structure Collab where
  hostEval : String → Except String JValue
  webviewPresent : Bool
  configRegister : JValue → JValue → JValue
  configUnregister : JValue → JValue
  configList : JValue
  statusSnapshot : JValue

/-- The `available` array of the unknown-method result, exactly as
written in the source.  Note it does not list `getOutput`, although
`getOutput` is a dispatchable method. -/
def availableMethods : List String :=
  ["eval", "webview", "registerConfig", "unregisterConfig", "listConfigs",
   "subscribe", "unsubscribe", "listSubscribers", "status", "restartExtension"]

/-- Every method name carried by a `case` of the dispatcher's `switch`
(the dispatch table), in source order. -/
def dispatchMethods : List String :=
  ["restartExtension", "eval", "webview", "registerConfig", "unregisterConfig",
   "listConfigs", "subscribe", "unsubscribe", "listSubscribers", "getOutput", "status"]

/-- `executeCommand`: the command dispatcher.  An `Except.error` is an
exception thrown out of the dispatcher (there is no try/catch inside
it); `Except.ok` pairs the handler's return value with the updated
bridge state.  Property reads on an `undefined` `cmdParams` throw a
`TypeError` (the exact JS message text is inessential and modelled).
The `onProgress` observability hook and the collaborator side effects
(`setImmediate` restart, `openView`) have no bearing on any claim and
are not recorded. -/
def executeCommand (C : Collab) (st : BridgeState) (req : Request) :
    Except String (JValue × BridgeState) :=
  match req.method with
  | "restartExtension" =>
      .ok (.obj [("success", .bool true), ("message", .str "Extension host will restart")], st)
  | "eval" =>
      match req.params with
      | none => .error "TypeError: Cannot read properties of undefined (reading 'code')"
      | some ps =>
          match List.lookup "code" ps with
          | some (.str s) => (C.hostEval (evalPreprocess s)).map (fun v => (v, st))
          | _ => .error "TypeError: cmdParams.code.trim is not a function"
  | "webview" =>
      if !C.webviewPresent then
        .ok (.obj [("error", .str "WebviewManager not initialized")], st)
      else
        match req.params with
        | none => .error "TypeError: Cannot read properties of undefined (reading 'viewName')"
        | some ps =>
            if !(jsTruthy (List.lookup "viewName" ps)) then
              .ok (.obj [("error", .str "viewName parameter required")], st)
            else
              .ok (.obj [("success", .bool true),
                         ("webview", (List.lookup "viewName" ps).getD .null)], st)
  | "registerConfig" =>
      match req.params with
      | none => .error "TypeError: Cannot read properties of undefined (reading 'name')"
      | some ps =>
          if !(jsTruthy (List.lookup "name" ps)) || !(jsTruthy (List.lookup "filePath" ps)) then
            .ok (.obj [("error", .str "name and filePath required")], st)
          else
            .ok (C.configRegister ((List.lookup "name" ps).getD .null)
                   ((List.lookup "filePath" ps).getD .null), st)
  | "unregisterConfig" =>
      match req.params with
      | none => .error "TypeError: Cannot read properties of undefined (reading 'name')"
      | some ps =>
          if !(jsTruthy (List.lookup "name" ps)) then
            .ok (.obj [("error", .str "name required")], st)
          else
            .ok (C.configUnregister ((List.lookup "name" ps).getD .null), st)
  | "listConfigs" =>
      .ok (C.configList, st)
  | "subscribe" =>
      match req.params with
      | none => .error "TypeError: Cannot read properties of undefined (reading 'url')"
      | some ps =>
          match List.lookup "url" ps with
          | some u =>
              if jsTruthyV u then
                let subs := setAdd st.subscribers u
                .ok (.obj [("success", .bool true),
                           ("message", .str ("Subscribed to " ++ jsToString u)),
                           ("subscribers", .arr subs)],
                     { subscribers := subs,
                       outputHistory :=
                         appendOutput st.outputHistory ("✓ Subscribed: " ++ jsToString u) })
              else
                .ok (.obj [("error", .str "url parameter required")], st)
          | none => .ok (.obj [("error", .str "url parameter required")], st)
  | "unsubscribe" =>
      match req.params with
      | none => .error "TypeError: Cannot read properties of undefined (reading 'url')"
      | some ps =>
          match List.lookup "url" ps with
          | some u =>
              if jsTruthyV u then
                .ok (.obj [("success", .bool true),
                           ("message", .str ("Unsubscribed from " ++ jsToString u))],
                     { subscribers := setDel st.subscribers u,
                       outputHistory :=
                         appendOutput st.outputHistory ("✓ Unsubscribed: " ++ jsToString u) })
              else
                .ok (.obj [("error", .str "url parameter required")], st)
          | none => .ok (.obj [("error", .str "url parameter required")], st)
  | "listSubscribers" =>
      .ok (.obj [("success", .bool true),
                 ("message", .str (toString st.subscribers.length ++ " subscriber(s)")),
                 ("subscribers", .arr st.subscribers)], st)
  | "getOutput" =>
      match req.params with
      | none => .error "TypeError: Cannot read properties of undefined (reading 'lines')"
      | some ps =>
          let lv := List.lookup "lines" ps
          let lines : JValue := if jsTruthy lv then lv.getD (.num 100) else .num 100
          .ok (.obj [("output", .arr ((jsSlice st.outputHistory (-(jsToNum lines))).map JValue.str)),
                     ("total", .num st.outputHistory.length)], st)
  | "status" =>
      .ok (C.statusSnapshot, st)
  | m =>
      .ok (.obj [("error", .str ("Unknown method: " ++ m)),
                 ("available", .arr (availableMethods.map JValue.str)),
                 ("hint", .str "Run \"vscode --help\" for examples")], st)

/-- The response written back to the client: `{ok:true, result}` or
`{ok:false, error}`. -/
inductive Response where
  | ok (result : JValue)
  | err (error : JValue)
  deriving DecidableEq

/-- Serialization of a response as written to the socket and to the
`← OUTPUT` / `← ERROR` log lines. -/
def renderResponse : Response → String
  | .ok v => "\x7b\"ok\":true,\"result\":" ++ jsonStringify v ++ "\x7d"
  | .err e => "\x7b\"ok\":false,\"error\":" ++ jsonStringify e ++ "\x7d"

/-- Serialization of a parsed request for the `→ INPUT` log line. -/
def renderRequest (r : Request) : String :=
  "\x7b\"method\":" ++ jsonStringify (.str r.method) ++
    (match r.params with
     | none => ""
     | some ps => ",\"params\":" ++ jsonStringify (.obj ps)) ++ "\x7d"

/-- The connection handler's shape test on the dispatcher's return
value: a truthy value of type `object` owning an `error` property is
turned into `{ok:false, error: result.error}`, every other value into
`{ok:true, result}`.  (`null` is falsy; an array never owns an `error`
key; all other non-objects fail the `typeof` test.) -/
def respOf (v : JValue) : Response :=
  match v with
  | .obj fs =>
      match List.lookup "error" fs with
      | some e => .err e
      | none => .ok v
  | v => .ok v

/-- Socket-level actions emitted by the connection handler, in order. -/
inductive SockAction where
  | write (r : Response)
  | close
  deriving DecidableEq

/-- The state after logging the `→ INPUT` line for a successfully
parsed request (this happens before dispatch, so it persists even when
the dispatcher throws). -/
def stAfterInputLog (st : BridgeState) (req : Request) : BridgeState :=
  { st with outputHistory := appendOutput st.outputHistory ("→ INPUT: " ++ renderRequest req) }

/-- One `data` event of `handleConnection` (the protocol is one
request per connection).  The input is the outcome of `JSON.parse` on
the received bytes: `Except.error` is a parse exception, handled by the
`catch` branch.  A throw from `executeCommand` is caught by the same
`catch`.  Every branch writes exactly one response and then ends the
socket. -/
def handleData (C : Collab) (st : BridgeState) (raw : Except String Request) :
    List SockAction × BridgeState :=
  match raw with
  | .error msg =>
      ([.write (Response.err (.str msg)), .close],
       { st with outputHistory := appendOutput st.outputHistory ("← ERROR: " ++ renderResponse (Response.err (.str msg))) })
  | .ok req =>
      match executeCommand C (stAfterInputLog st req) req with
      | .ok (v, st2) =>
          ([.write (respOf v), .close],
           { st2 with outputHistory := appendOutput st2.outputHistory ("← OUTPUT: " ++ renderResponse (respOf v)) })
      | .error e =>
          ([.write (Response.err (.str e)), .close],
           { stAfterInputLog st req with outputHistory := appendOutput (stAfterInputLog st req).outputHistory ("← ERROR: " ++ renderResponse (Response.err (.str e))) })

/-- The log line recorded when a broadcast POST to `u` fails with
message `e`. -/
def failLine (u : JValue) (e : String) : String :=
  "✖ Broadcast failed to " ++ jsToString u ++ ": " ++ e

/-- One iteration of `broadcast`'s `subscribers.forEach`: the `fetch`
is issued and its failure, if any, is absorbed by the attached `.catch`
which appends the failure line to the output history. -/
def broadcastStep (deliver : JValue → Except String Unit) (hist : List String)
    (u : JValue) : List String :=
  match deliver u with
  | .ok _ => hist
  | .error e => appendOutput hist (failLine u e)

/-- Result of a `broadcast(event)` call: the list of subscriber URLs a
POST was issued to (in iteration order) and the output history after
all per-subscriber `.catch` handlers ran.  `deliver` is the outcome of
each POST.  The function is total: no delivery outcome reaches the
caller as an exception. -/
structure BroadcastResult where
  attempted : List JValue
  hist : List String
  deriving DecidableEq

/-- `broadcast(event)` over the current subscriber list. -/
def broadcastRun (deliver : JValue → Except String Unit) (subs : List JValue)
    (hist : List String) : BroadcastResult :=
  subs.foldl
    (fun acc u =>
      { attempted := acc.attempted ++ [u],
        hist := broadcastStep deliver acc.hist u })
    { attempted := [], hist := hist }

/-- The `server.on('error')` handler's log lines: `EADDRINUSE` gets a
distinct pair of lines including the remediation command; every other
error code gets the generic line. -/
def serverErrorLines (code : String) (errStr : String) : List String :=
  if code = "EADDRINUSE" then
    ["✖ Port 9485 already in use", "Run: lsof -ti :9485 | xargs kill -9"]
  else
    ["✖ Server error: " ++ errStr]

/-- Observable outcome of `startBridgeServer` with respect to a bind
attempt: whether the call returned a `BridgeServerInstance` to its
caller, and what the `error` handler logged.  `bindError` is `none`
when `listen` succeeds and `some (code, message)` when the server
emits an `error` event.  The source returns the instance object
unconditionally and synchronously, before `listen` resolves. -/
structure StartOutcome where
  handleReturned : Bool
  errorLog : List String
  deriving DecidableEq

/-- `startBridgeServer`'s outcome as a function of the bind result. -/
def startBridgeOutcome (bindError : Option (String × String)) : StartOutcome :=
  { handleReturned := true,
    errorLog :=
      match bindError with
      | none => []
      | some (c, e) => serverErrorLines c e }

/-- One subscriber-registry mutation. -/
inductive SubOp where
  | sub (u : JValue)
  | unsub (u : JValue)
  deriving DecidableEq

/-- Apply one registry mutation to the stored subscriber list. -/
def applyOp (s : List JValue) : SubOp → List JValue
  | .sub u => setAdd s u
  | .unsub u => setDel s u

/-- Pure set semantics of one mutation, tracked pointwise for a fixed
element `u`: `sub u` makes it a member, `unsub u` a non-member, any
operation on another element leaves membership alone. -/
def applyMem (u : JValue) (m : Bool) : SubOp → Bool
  | .sub v => if v = u then true else m
  | .unsub v => if v = u then false else m

/-- Consume the maximal run of leading decimal digits. -/
def takeDigits : List Char → List Char × List Char
  | [] => ([], [])
  | c :: cs =>
      if c.isDigit then
        let p := takeDigits cs
        (c :: p.1, p.2)
      else
        ([], c :: cs)

/-- Value of a digit run. -/
def digitsVal (l : List Char) : Nat :=
  l.foldl (fun a c => a * 10 + (c.toNat - '0'.toNat)) 0

/-- Modelled from the spec: the host capability surface
`evalContext(code, logSink) → any (throws on script error)` — the JS
engine executing the preprocessed eval code, which is not part of the
bridge core.  The model evaluates scripts of the shape
`return (<digits>+<digits>)`; every other script fails, modelling
"throws on script error". -/
def hostEvalModel (code : String) : Except String JValue :=
  match stripLead "return (".toList code.toList with
  | some rest =>
      let p1 := takeDigits rest
      if p1.1 = [] then .error "Script error"
      else
        match p1.2 with
        | '+' :: r2 =>
            let p2 := takeDigits r2
            if p2.1 = [] then .error "Script error"
            else if p2.2 = [')'] then .ok (.num ((digitsVal p1.1 : Int) + digitsVal p2.1))
            else .error "Script error"
        | _ => .error "Script error"
  | none => .error "Script error"

/-- A concrete collaborator assembly used to evaluate scenarios: the
modelled host engine, a present webview manager, and trivial config /
status collaborators. -/
def collabModel : Collab :=
  { hostEval := hostEvalModel,
    webviewPresent := true,
    configRegister := fun _ _ => .obj [("success", .bool true)],
    configUnregister := fun _ => .obj [("success", .bool true)],
    configList := .obj [("configs", .arr [])],
    statusSnapshot := .obj [] }

/-- A collaborator assembly whose host engine returns (not throws) an
object value carrying an `error` field. -/
def collabErrObj : Collab :=
  { collabModel with hostEval := fun _ => .ok (.obj [("error", .str "label not found")]) }

/-- Substring test on character lists. -/
def hasSubstr (needle : List Char) : List Char → Bool
  | [] => needle.isEmpty
  | c :: t => (stripLead needle (c :: t)).isSome || hasSubstr needle t

/-- Declarative reading of "contains the keyword `return`": some
occurrence of the six letters `return` delimited on both sides by a
word boundary (start/end of string or a non-word character). -/
def ContainsReturnKeyword (s : List Char) : Prop :=
  ∃ pre post, s = pre ++ retChars ++ post ∧
    (∀ c, pre.getLast? = some c → isWordChar c = false) ∧
    (∀ c, post.head? = some c → isWordChar c = false)

theorem stripLead_eq_some_iff : ∀ (p l r : List Char), stripLead p l = some r ↔ l = p ++ r := by
  intro p
  induction p with
  | nil =>
      intro l r
      simp [stripLead, eq_comm]
  | cons a ps ih =>
      intro l r
      cases l with
      | nil =>
          simp [stripLead]
      | cons c cs =>
          simp only [stripLead]
          by_cases h : a = c
          · subst h
            rw [if_pos rfl, ih]
            simp
          · rw [if_neg h]
            constructor
            · intro hh
              exact absurd hh (by simp)
            · intro hh
              injection hh with h1 h2
              exact absurd h1.symm h

theorem boundaryAfter_iff (l : List Char) :
    boundaryAfter l = true ↔ ∀ c, l.head? = some c → isWordChar c = false := by
  cases l with
  | nil => simp [boundaryAfter]
  | cons c t => simp [boundaryAfter, Bool.not_eq_true']

theorem startsRet_iff (l : List Char) :
    startsRet l = true ↔
      ∃ post, l = retChars ++ post ∧ ∀ c, post.head? = some c → isWordChar c = false := by
  unfold startsRet
  cases h : stripLead retChars l with
  | none =>
      constructor
      · intro hh
        exact absurd hh (by simp)
      · rintro ⟨post, hp, -⟩
        have hs : stripLead retChars l = some post := (stripLead_eq_some_iff _ _ _).mpr hp
        rw [h] at hs
        exact absurd hs (by simp)
  | some rest =>
      have hl : l = retChars ++ rest := (stripLead_eq_some_iff _ _ _).mp h
      constructor
      · intro hb
        exact ⟨rest, hl, (boundaryAfter_iff rest).mp hb⟩
      · rintro ⟨post, hp, hh⟩
        have hpr : post = rest := by
          rw [hl] at hp
          exact (List.append_cancel_left hp.symm)
        subst hpr
        exact (boundaryAfter_iff post).mpr hh

theorem hasWordReturnAux_iff : ∀ (l : List Char) (prev : Bool),
    hasWordReturnAux prev l = true ↔
      ∃ pre post, l = pre ++ retChars ++ post ∧
        (pre = [] → prev = false) ∧
        (∀ c, pre.getLast? = some c → isWordChar c = false) ∧
        (∀ c, post.head? = some c → isWordChar c = false) := by
  intro l
  induction l with
  | nil =>
      intro prev
      constructor
      · intro h
        exact absurd h (by simp [hasWordReturnAux])
      · rintro ⟨pre, post, h, -, -, -⟩
        have : (0 : Nat) = pre.length + (post.length + 1 + 1 + 1 + 1 + 1 + 1) := by
          simpa [retChars] using congrArg List.length h
        omega
  | cons c rest ih =>
      intro prev
      constructor
      · intro h
        have h' : (prev = false ∧ startsRet (c :: rest) = true) ∨
            hasWordReturnAux (isWordChar c) rest = true := by
          simpa [hasWordReturnAux] using h
        rcases h' with ⟨hp, hs⟩ | h2
        · rcases (startsRet_iff _).mp hs with ⟨post, hpost, hhead⟩
          exact ⟨[], post, by simpa using hpost, fun _ => hp, by simp, hhead⟩
        · rcases (ih (isWordChar c)).mp h2 with ⟨pre, post, hrest, hpre0, hpreL, hpost⟩
          refine ⟨c :: pre, post, by simp [hrest], by simp, ?_, hpost⟩
          intro d hd
          cases pre with
          | nil =>
              have hdc : d = c := by simpa using hd.symm
              subst hdc
              exact hpre0 rfl
          | cons p ps =>
              rw [List.getLast?_cons_cons] at hd
              exact hpreL d hd
      · rintro ⟨pre, post, hl, hpre0, hpreL, hpost⟩
        cases pre with
        | nil =>
            have hs : startsRet (c :: rest) = true :=
              (startsRet_iff _).mpr ⟨post, by simpa using hl, hpost⟩
            have hp : prev = false := hpre0 rfl
            simp [hasWordReturnAux, hp, hs]
        | cons p ps =>
            have hcp : c = p ∧ rest = ps ++ (retChars ++ post) := by
              simpa using hl
            have h2 : hasWordReturnAux (isWordChar c) rest = true := by
              apply (ih (isWordChar c)).mpr
              refine ⟨ps, post, by simpa [List.append_assoc] using hcp.2, ?_, ?_, hpost⟩
              · intro hps
                subst hps
                have hlast : isWordChar p = false := hpreL p (by simp)
                rw [hcp.1]
                exact hlast
              · intro d hd
                apply hpreL d
                cases ps with
                | nil => exact absurd hd (by simp)
                | cons q qs => rw [List.getLast?_cons_cons]; exact hd
            simp [hasWordReturnAux, h2]

theorem hasWordReturn_iff (s : String) :
    hasWordReturn s = true ↔ ContainsReturnKeyword s.toList := by
  unfold hasWordReturn ContainsReturnKeyword
  rw [hasWordReturnAux_iff]
  constructor
  · rintro ⟨pre, post, h, -, hL, hH⟩
    exact ⟨pre, post, h, hL, hH⟩
  · rintro ⟨pre, post, h, hL, hH⟩
    exact ⟨pre, post, h, fun _ => rfl, hL, hH⟩

theorem containsChar_iff (s : String) (c : Char) :
    containsChar s c = true ↔ c ∈ s.toList := by
  unfold containsChar
  exact List.elem_iff

theorem appendOutput_length_le (hist : List String) (line : String)
    (h : hist.length ≤ 1000) : (appendOutput hist line).length ≤ 1000 := by
  unfold appendOutput
  split
  · rw [List.length_drop]
    simp only [List.length_append, List.length_cons, List.length_nil]
    omega
  · rename_i h1
    simp only [List.length_append, List.length_cons, List.length_nil] at h1 ⊢
    omega

theorem ringOf_eq (xs : List String) :
    xs.foldl appendOutput [] = xs.drop (xs.length - 1000) := by
  induction xs using List.reverseRecOn with
  | nil => simp
  | append_singleton ys y ih =>
      rw [List.foldl_append, List.foldl_cons, List.foldl_nil, ih]
      unfold appendOutput
      by_cases h : ys.length < 1000
      · have h0 : ys.length - 1000 = 0 := by omega
        rw [h0, List.drop_zero]
        rw [if_neg (by simp only [List.length_append, List.length_cons, List.length_nil]; omega)]
        have h1 : (ys ++ [y]).length - 1000 = 0 := by
          simp only [List.length_append, List.length_cons, List.length_nil]
          omega
        rw [h1, List.drop_zero]
      · have hd : (ys.drop (ys.length - 1000)).length = 1000 := by
          rw [List.length_drop]
          omega
        rw [if_pos (by
          simp only [List.length_append, List.length_cons, List.length_nil, hd]
          omega)]
        rw [List.drop_append_of_le_length (by rw [hd]; omega)]
        rw [List.drop_drop]
        rw [List.drop_append_of_le_length
          (by simp only [List.length_append, List.length_cons, List.length_nil]; omega)]
        simp only [List.length_append, List.length_cons, List.length_nil]
        have hidx : ys.length - 1000 + 1 = ys.length + 1 - 1000 := by omega
        rw [hidx]

theorem ring_length_le (xs : List String) :
    (xs.foldl appendOutput []).length ≤ 1000 := by
  rw [ringOf_eq, List.length_drop]
  omega

theorem lastN_min (l : List String) (n : Nat) :
    lastN (min n l.length) l = l.drop (l.length - n) := by
  unfold lastN
  congr 1
  omega

theorem jsSlice_neg_int (l : List String) (n : Int) (h : 1 ≤ n) :
    jsSlice l (-n) = l.drop (l.length - n.toNat) := by
  unfold jsSlice
  rw [if_pos (by omega)]
  congr 1
  omega

theorem mem_setAdd (s : List JValue) (u v : JValue) :
    v ∈ setAdd s u ↔ v ∈ s ∨ v = u := by
  unfold setAdd
  split
  · rename_i hm
    constructor
    · exact Or.inl
    · rintro (hv | rfl)
      · exact hv
      · exact hm
  · simp

theorem mem_setDel (s : List JValue) (u v : JValue) :
    v ∈ setDel s u ↔ v ∈ s ∧ v ≠ u := by
  unfold setDel
  simp [List.mem_filter]

theorem setAdd_mem_eq (s : List JValue) (u : JValue) (h : u ∈ s) :
    setAdd s u = s := by
  unfold setAdd
  rw [if_pos h]

theorem setDel_not_mem_eq (s : List JValue) (u : JValue) (h : u ∉ s) :
    setDel s u = s := by
  unfold setDel
  rw [List.filter_eq_self]
  intro a ha
  simp
  rintro rfl
  exact h ha

theorem foldl_applyOp_mem : ∀ (ops : List SubOp) (s : List JValue) (u : JValue),
    u ∈ ops.foldl applyOp s ↔ ops.foldl (applyMem u) (decide (u ∈ s)) = true := by
  intro ops
  induction ops with
  | nil =>
      intro s u
      simp
  | cons op rest ih =>
      intro s u
      rw [List.foldl_cons, List.foldl_cons, ih]
      have hstep : decide (u ∈ applyOp s op) = applyMem u (decide (u ∈ s)) op := by
        cases op with
        | sub v =>
            by_cases hv : v = u
            · subst hv
              simp [applyOp, applyMem, mem_setAdd]
            · simp [applyOp, applyMem, mem_setAdd, hv, Ne.symm hv]
        | unsub v =>
            by_cases hv : v = u
            · subst hv
              simp [applyOp, applyMem, mem_setDel]
            · simp [applyOp, applyMem, mem_setDel, hv, Ne.symm hv]
      rw [hstep]

theorem evalWraps_iff (code : String) :
    evalWraps code = true ↔
      ¬ ContainsReturnKeyword code.toList ∧ '\n' ∉ code.toList ∧ ';' ∉ code.toList := by
  unfold evalWraps
  rw [Bool.and_eq_true, Bool.and_eq_true, Bool.not_eq_true', Bool.not_eq_true',
    Bool.not_eq_true']
  rw [← Bool.not_eq_true (hasWordReturn code), ← Bool.not_eq_true (containsChar code '\n'),
    ← Bool.not_eq_true (containsChar code ';')]
  rw [hasWordReturn_iff, containsChar_iff, containsChar_iff]

theorem executeCommand_unknown (C : Collab) (st : BridgeState) (m : String)
    (ps : Option (List (String × JValue))) (h : m ∉ dispatchMethods) :
    executeCommand C st ⟨m, ps⟩ =
      .ok (.obj [("error", .str ("Unknown method: " ++ m)),
                 ("available", .arr (availableMethods.map JValue.str)),
                 ("hint", .str "Run \"vscode --help\" for examples")], st) := by
  simp only [dispatchMethods, List.mem_cons, not_or] at h
  unfold executeCommand
  split <;> simp_all

/-- C1 counterexample: the request code `"40+2\n"` contains a newline,
so by the claim it would be executed verbatim; the `eval` handler
nevertheless trims it and wraps it as `return (40+2)`. -/
theorem eval_wrap_trim_cx :
    evalPreprocess "40+2\n" = "return (40+2)" ∧
    containsChar "40+2\n" '\n' = true ∧
    evalPreprocess "40+2\n" ≠ "40+2\n" := by
  refine ⟨rfl, rfl, by decide⟩

/-- C1 (amended): the `eval` handler first trims the submitted code;
the trimmed string is wrapped as `return (<code>)` exactly when it
contains neither a newline nor a semicolon and has no word-boundary
occurrence of the keyword `return`, and otherwise the trimmed string is
executed as-is.  The request `{"method":"eval","params":{"code":"40+2"}}`
is wrapped and produces the response `{"ok":true,"result":42}`. -/
theorem eval_wrapping_rule :
    (∀ code : String,
        evalWraps code = true ↔
          ¬ ContainsReturnKeyword code.toList ∧ '\n' ∉ code.toList ∧ ';' ∉ code.toList) ∧
    (∀ code : String,
        evalPreprocess code =
          if evalWraps (jsTrim code) then "return (" ++ jsTrim code ++ ")" else jsTrim code) ∧
    (handleData collabModel ⟨[], []⟩ (.ok ⟨"eval", some [("code", .str "40+2")]⟩)).1 =
      [.write (.ok (.num 42)), .close] :=
  ⟨evalWraps_iff, fun _ => rfl, rfl⟩

/-- C2 counterexample: an `eval` request whose script fails makes
`executeCommand` itself throw (`Except.error`), i.e. the failure
crosses the dispatcher's boundary as an exception instead of being
converted to an `{error: ...}` object inside the dispatcher. -/
theorem dispatch_throws_cx :
    executeCommand collabModel ⟨[], []⟩ ⟨"eval", some [("code", .str "boom()")]⟩ =
      .error "Script error" := rfl

/-- C2 (amended): handler failures thrown inside `executeCommand`
(eval execution errors, parameter-access TypeErrors) propagate out of
the dispatcher, but the connection handler's try/catch converts every
such exception into the single response `{ok:false, error:<message>}`;
no exception escapes the connection handler. -/
theorem dispatch_failure_surfaced (C : Collab) (st : BridgeState) (req : Request) (e : String)
    (h : executeCommand C (stAfterInputLog st req) req = .error e) :
    (handleData C st (.ok req)).1 = [.write (.err (.str e)), .close] := by
  simp only [handleData]
  rw [h]

theorem dispatch_failure_surfaced_witness :
    (handleData collabModel ⟨[], []⟩ (.ok ⟨"eval", some [("code", .str "boom()")]⟩)).1 =
      [.write (.err (.str "Script error")), .close] :=
  dispatch_failure_surfaced collabModel ⟨[], []⟩ ⟨"eval", some [("code", .str "boom()")]⟩
    "Script error" rfl

/-- C3 counterexample: for the unknown method `nope`, the response
written to the client is `{ok:false, error:"Unknown method: nope"}` —
its error payload does not enumerate the known methods (it does not
even mention `eval`); moreover the dispatcher's own `available` list
omits the dispatchable method `getOutput`. -/
theorem unknown_method_cx :
    (handleData collabModel ⟨[], []⟩ (.ok ⟨"nope", some []⟩)).1 =
      [.write (.err (.str "Unknown method: nope")), .close] ∧
    hasSubstr "eval".toList "Unknown method: nope".toList = false ∧
    "getOutput" ∉ availableMethods ∧ "getOutput" ∈ dispatchMethods := by
  refine ⟨rfl, rfl, by decide, by decide⟩

/-- C3 (amended): for a request whose method is not in the dispatch
table, the dispatcher's internal result carries `ok:false` semantics
with an `available` field listing ten method names (every dispatchable
method except `getOutput`) and a hint, but the connection handler
writes only `{ok:false, error:"Unknown method: <m>"}` to the client,
discarding the enumeration. -/
theorem unknown_method_response (C : Collab) (st : BridgeState) (m : String)
    (ps : Option (List (String × JValue))) (h : m ∉ dispatchMethods) :
    executeCommand C st ⟨m, ps⟩ =
      .ok (.obj [("error", .str ("Unknown method: " ++ m)),
                 ("available", .arr (availableMethods.map JValue.str)),
                 ("hint", .str "Run \"vscode --help\" for examples")], st) ∧
    (handleData C st (.ok ⟨m, ps⟩)).1 =
      [.write (.err (.str ("Unknown method: " ++ m))), .close] := by
  refine ⟨executeCommand_unknown C st m ps h, ?_⟩
  simp only [handleData]
  rw [executeCommand_unknown C (stAfterInputLog st ⟨m, ps⟩) m ps h]
  rfl

theorem unknown_method_response_witness :
    executeCommand collabModel ⟨[], []⟩ ⟨"nope", some []⟩ =
      .ok (.obj [("error", .str ("Unknown method: " ++ "nope")),
                 ("available", .arr (availableMethods.map JValue.str)),
                 ("hint", .str "Run \"vscode --help\" for examples")], ⟨[], []⟩) ∧
    (handleData collabModel ⟨[], []⟩ (.ok ⟨"nope", some []⟩)).1 =
      [.write (.err (.str ("Unknown method: " ++ "nope"))), .close] :=
  unknown_method_response collabModel ⟨[], []⟩ "nope" (some []) (by decide)

/-- C4 counterexample: with one retained line and `lines = 0`, the
claim demands the last `min(0, 1) = 0` lines (an empty array), but
`cmdParams.lines || 100` treats `0` as absent, so the handler falls
back to 100 and returns the line. -/
theorem getOutput_zero_cx :
    executeCommand collabModel ⟨[], ["a"]⟩ ⟨"getOutput", some [("lines", .num 0)]⟩ =
      .ok (.obj [("output", .arr [.str "a"]), ("total", .num 1)], ⟨[], ["a"]⟩) ∧
    JValue.arr [.str "a"] ≠ JValue.arr [] := by
  refine ⟨rfl, by decide⟩

/-- C4 (amended): for every buffer state and every `lines = n` with
`n ≥ 1`, `getOutput` returns the last `min(n, length)` retained lines
in insertion order and `total` equal to the buffer's current length;
when `lines` is omitted (or `0`, which is falsy) it defaults to 100.
After appending `N > 1000` lines to an initially empty buffer,
`getOutput(1000)` returns exactly the most recent 1000 lines in their
original order. -/
theorem getOutput_tail_semantics :
    (∀ (C : Collab) (st : BridgeState) (n : Int), 1 ≤ n →
        executeCommand C st ⟨"getOutput", some [("lines", .num n)]⟩ =
          .ok (.obj [("output",
                      .arr ((lastN (min n.toNat st.outputHistory.length) st.outputHistory).map JValue.str)),
                     ("total", .num st.outputHistory.length)], st)) ∧
    (∀ (C : Collab) (st : BridgeState),
        executeCommand C st ⟨"getOutput", some []⟩ =
          .ok (.obj [("output",
                      .arr ((lastN (min 100 st.outputHistory.length) st.outputHistory).map JValue.str)),
                     ("total", .num st.outputHistory.length)], st)) ∧
    (∀ (C : Collab) (subs : List JValue) (xs : List String), 1000 < xs.length →
        executeCommand C ⟨subs, xs.foldl appendOutput []⟩ ⟨"getOutput", some [("lines", .num 1000)]⟩ =
          .ok (.obj [("output", .arr ((lastN 1000 xs).map JValue.str)),
                     ("total", .num 1000)], ⟨subs, xs.foldl appendOutput []⟩)) := by
  refine ⟨?_, ?_, ?_⟩
  · intro C st n h
    have hn : (n != 0) = true := by simp; omega
    rw [lastN_min]
    simp [executeCommand, List.lookup, jsTruthy, jsTruthyV, hn, jsToNum, jsSlice_neg_int _ _ h]
  · intro C st
    rw [lastN_min]
    have h100 : jsSlice st.outputHistory (-(100 : Int)) =
        st.outputHistory.drop (st.outputHistory.length - (100 : Int).toNat) :=
      jsSlice_neg_int _ 100 (by norm_num)
    simp [executeCommand, List.lookup, jsTruthy, jsToNum, h100]
  · intro C subs xs h
    have hist_eq : xs.foldl appendOutput [] = xs.drop (xs.length - 1000) := ringOf_eq xs
    have hlen : (xs.foldl appendOutput []).length = 1000 := by
      rw [hist_eq, List.length_drop]
      omega
    have hsl : jsSlice (xs.foldl appendOutput []) (-(1000 : Int)) =
        (xs.foldl appendOutput []).drop ((xs.foldl appendOutput []).length - (1000 : Int).toNat) :=
      jsSlice_neg_int _ 1000 (by norm_num)
    simp [executeCommand, List.lookup, jsTruthy, jsTruthyV, jsToNum, hsl, hlen]
    rw [hist_eq]
    simp [lastN]

theorem getOutput_tail_semantics_witness :
    (1 : Int) ≤ 1 ∧
    executeCommand collabModel ⟨[], ["a", "b"]⟩ ⟨"getOutput", some [("lines", .num 1)]⟩ =
      .ok (.obj [("output",
                  .arr ((lastN (min (1 : Int).toNat (["a", "b"] : List String).length) ["a", "b"]).map JValue.str)),
                 ("total", .num (["a", "b"] : List String).length)], ⟨[], ["a", "b"]⟩) :=
  ⟨by norm_num, getOutput_tail_semantics.1 collabModel ⟨[], ["a", "b"]⟩ 1 (by norm_num)⟩

/-- C5: the output ring buffer's length never exceeds the capacity
1000: one append from any state within capacity stays within capacity,
and any sequence of appends from the initial empty buffer stays within
capacity. -/
theorem ring_buffer_capacity :
    (∀ (hist : List String) (line : String), hist.length ≤ 1000 →
        (appendOutput hist line).length ≤ 1000) ∧
    (∀ xs : List String, (xs.foldl appendOutput []).length ≤ 1000) :=
  ⟨appendOutput_length_le, ring_length_le⟩

theorem ring_buffer_capacity_witness :
    (["x"] : List String).length ≤ 1000 ∧ (appendOutput ["x"] "y").length ≤ 1000 :=
  ⟨by decide, ring_buffer_capacity.1 ["x"] "y" (by decide)⟩

/-- C6: `subscribe`/`unsubscribe` are idempotent set mutations:
subscribing an already-present (truthy) URL leaves the subscriber set
unchanged and returns a success result (classified `ok:true` by the
connection handler's shape test, clauses 3–4); unsubscribing an absent
URL likewise; in general the two handlers apply `setAdd`/`setDel`
(clause 6), and membership after any operation sequence is determined
pointwise by pure set semantics, so duplicates never matter
(clause 5). -/
theorem subscriber_set_idempotence :
    (∀ (C : Collab) (st : BridgeState) (u : JValue), jsTruthyV u = true → u ∈ st.subscribers →
        executeCommand C st ⟨"subscribe", some [("url", u)]⟩ =
          .ok (.obj [("success", .bool true),
                     ("message", .str ("Subscribed to " ++ jsToString u)),
                     ("subscribers", .arr st.subscribers)],
               ⟨st.subscribers, appendOutput st.outputHistory ("✓ Subscribed: " ++ jsToString u)⟩)) ∧
    (∀ (C : Collab) (st : BridgeState) (u : JValue), jsTruthyV u = true → u ∉ st.subscribers →
        executeCommand C st ⟨"unsubscribe", some [("url", u)]⟩ =
          .ok (.obj [("success", .bool true),
                     ("message", .str ("Unsubscribed from " ++ jsToString u))],
               ⟨st.subscribers, appendOutput st.outputHistory ("✓ Unsubscribed: " ++ jsToString u)⟩)) ∧
    (∀ (msg : String) (l : List JValue),
        respOf (.obj [("success", .bool true), ("message", .str msg), ("subscribers", .arr l)]) =
          .ok (.obj [("success", .bool true), ("message", .str msg), ("subscribers", .arr l)])) ∧
    (∀ msg : String,
        respOf (.obj [("success", .bool true), ("message", .str msg)]) =
          .ok (.obj [("success", .bool true), ("message", .str msg)])) ∧
    (∀ (ops : List SubOp) (s : List JValue) (u : JValue),
        u ∈ ops.foldl applyOp s ↔ ops.foldl (applyMem u) (decide (u ∈ s)) = true) ∧
    (∀ (C : Collab) (st : BridgeState) (u : JValue), jsTruthyV u = true →
        executeCommand C st ⟨"subscribe", some [("url", u)]⟩ =
          .ok (.obj [("success", .bool true),
                     ("message", .str ("Subscribed to " ++ jsToString u)),
                     ("subscribers", .arr (setAdd st.subscribers u))],
               ⟨setAdd st.subscribers u, appendOutput st.outputHistory ("✓ Subscribed: " ++ jsToString u)⟩) ∧
        executeCommand C st ⟨"unsubscribe", some [("url", u)]⟩ =
          .ok (.obj [("success", .bool true),
                     ("message", .str ("Unsubscribed from " ++ jsToString u))],
               ⟨setDel st.subscribers u, appendOutput st.outputHistory ("✓ Unsubscribed: " ++ jsToString u)⟩)) := by
  refine ⟨?_, ?_, fun _ _ => rfl, fun _ => rfl, foldl_applyOp_mem, ?_⟩
  · intro C st u hu hmem
    simp [executeCommand, List.lookup, hu, setAdd_mem_eq st.subscribers u hmem]
  · intro C st u hu hmem
    simp [executeCommand, List.lookup, hu, setDel_not_mem_eq st.subscribers u hmem]
  · intro C st u hu
    constructor
    · simp [executeCommand, List.lookup, hu]
    · simp [executeCommand, List.lookup, hu]

theorem subscriber_set_idempotence_witness :
    jsTruthyV (.str "http://localhost:1") = true ∧
    JValue.str "http://localhost:1" ∈ ([JValue.str "http://localhost:1"] : List JValue) ∧
    executeCommand collabModel ⟨[.str "http://localhost:1"], []⟩
        ⟨"subscribe", some [("url", .str "http://localhost:1")]⟩ =
      .ok (.obj [("success", .bool true),
                 ("message", .str ("Subscribed to " ++ jsToString (.str "http://localhost:1"))),
                 ("subscribers", .arr [.str "http://localhost:1"])],
           ⟨[.str "http://localhost:1"],
            appendOutput [] ("✓ Subscribed: " ++ jsToString (.str "http://localhost:1"))⟩) :=
  ⟨by decide, by decide,
   subscriber_set_idempotence.1 collabModel ⟨[.str "http://localhost:1"], []⟩
     (.str "http://localhost:1") (by decide) (by decide)⟩

/-- C7: for every accepted connection (one parsed data event, as the
protocol sends one request per connection), the handler emits exactly
one `write` of a response followed by closing the socket — in every
case: malformed JSON (`raw = .error`), a dispatcher result, or a
dispatcher exception. -/
theorem one_response_per_connection (C : Collab) (st : BridgeState)
    (raw : Except String Request) :
    ∃ r : Response, (handleData C st raw).1 = [.write r, .close] := by
  cases raw with
  | error msg => exact ⟨.err (.str msg), rfl⟩
  | ok req =>
      simp only [handleData]
      cases h : executeCommand C (stAfterInputLog st req) req with
      | ok p =>
          obtain ⟨v, st2⟩ := p
          exact ⟨respOf v, rfl⟩
      | error e => exact ⟨.err (.str e), rfl⟩

/-- C8 counterexample: when `listen` fails with `EADDRINUSE`,
`startBridgeServer` still returns a `BridgeServerInstance` to its
caller (the failure is only logged by the `error` handler), so `start`
does not fail and does not withhold the handle as the claim states. -/
theorem start_bind_cx :
    (startBridgeOutcome (some ("EADDRINUSE", "Error: listen EADDRINUSE: address already in use :::9485"))).handleReturned
      = true ∧
    (startBridgeOutcome (some ("EADDRINUSE", "Error: listen EADDRINUSE: address already in use :::9485"))).errorLog
      = ["✖ Port 9485 already in use", "Run: lsof -ti :9485 | xargs kill -9"] :=
  ⟨rfl, rfl⟩

/-- C8 (amended): a bind failure surfaces asynchronously through the
server `error` handler, which distinguishes `EADDRINUSE` from every
other error code and logs a distinct, actionable remediation pair of
lines instead of the generic `Server error` line; `startBridgeServer`
itself never fails and returns the handle unconditionally. -/
theorem start_bind_logging :
    (∀ bindError, (startBridgeOutcome bindError).handleReturned = true) ∧
    (∀ e, serverErrorLines "EADDRINUSE" e =
        ["✖ Port 9485 already in use", "Run: lsof -ti :9485 | xargs kill -9"]) ∧
    (∀ c e, c ≠ "EADDRINUSE" → serverErrorLines c e = ["✖ Server error: " ++ e]) ∧
    (∀ c e e', c ≠ "EADDRINUSE" →
        serverErrorLines "EADDRINUSE" e ≠ serverErrorLines c e') := by
  refine ⟨fun _ => rfl, fun _ => rfl, ?_, ?_⟩
  · intro c e h
    simp [serverErrorLines, h]
  · intro c e e' h
    simp [serverErrorLines, h]

theorem start_bind_logging_witness :
    ("ECONNRESET" : String) ≠ "EADDRINUSE" ∧
    serverErrorLines "ECONNRESET" "boom" = ["✖ Server error: " ++ "boom"] :=
  ⟨by decide, start_bind_logging.2.2.1 "ECONNRESET" "boom" (by decide)⟩

/-- C9: `broadcast` issues one POST per current subscriber in
iteration order regardless of individual outcomes (one subscriber's
failure never prevents the attempt for the others), each per-subscriber
failure is absorbed by its own `.catch` which appends the failure line
to the output ring buffer, a successful delivery leaves the buffer
alone, and the run is the fold of these total per-subscriber steps —
no delivery outcome reaches `broadcast`'s caller as an exception. -/
theorem broadcast_isolation :
    (∀ (deliver : JValue → Except String Unit) (subs : List JValue) (hist : List String),
        (broadcastRun deliver subs hist).attempted = subs) ∧
    (∀ (deliver : JValue → Except String Unit) (hist : List String) (u : JValue) (e : String),
        deliver u = .error e →
        broadcastStep deliver hist u = appendOutput hist (failLine u e)) ∧
    (∀ (deliver : JValue → Except String Unit) (hist : List String) (u : JValue),
        deliver u = .ok () →
        broadcastStep deliver hist u = hist) ∧
    (∀ (deliver : JValue → Except String Unit) (subs : List JValue) (hist : List String),
        (broadcastRun deliver subs hist).hist = subs.foldl (broadcastStep deliver) hist) := by
  have hrun : ∀ (deliver : JValue → Except String Unit) (subs : List JValue)
      (acc : BroadcastResult),
      subs.foldl
          (fun acc u =>
            { attempted := acc.attempted ++ [u], hist := broadcastStep deliver acc.hist u })
          acc =
        { attempted := acc.attempted ++ subs,
          hist := subs.foldl (broadcastStep deliver) acc.hist } := by
    intro deliver subs
    induction subs with
    | nil => intro acc; simp
    | cons u rest ih =>
        intro acc
        rw [List.foldl_cons, List.foldl_cons, ih]
        simp
  refine ⟨?_, ?_, ?_, ?_⟩
  · intro deliver subs hist
    unfold broadcastRun
    rw [hrun]
    rfl
  · intro deliver hist u e h
    unfold broadcastStep
    rw [h]
  · intro deliver hist u h
    unfold broadcastStep
    rw [h]
  · intro deliver subs hist
    unfold broadcastRun
    rw [hrun]

theorem broadcast_isolation_witness :
    (fun v : JValue => (.error "fetch failed" : Except String Unit)) (.str "http://a") =
      .error "fetch failed" ∧
    broadcastStep (fun _ => .error "fetch failed") [] (.str "http://a") =
      appendOutput [] (failLine (.str "http://a") "fetch failed") :=
  ⟨rfl, broadcast_isolation.2.1 (fun _ => .error "fetch failed") [] (.str "http://a")
    "fetch failed" rfl⟩

/-- C10 (implicit): the connection handler classifies the dispatcher's
return value purely by shape — any object result owning an `error`
property is written as `{ok:false, error: <that property>}` (all other
properties discarded, since the written response carries nothing else),
and in particular an `eval` whose code evaluates without throwing to an
object with an `error` field is reported as a failure, never `ok:true`. -/
theorem error_shape_classification :
    (∀ (C : Collab) (st : BridgeState) (req : Request) (v : JValue) (st2 : BridgeState)
        (fs : List (String × JValue)) (e : JValue),
        executeCommand C (stAfterInputLog st req) req = .ok (v, st2) →
        v = .obj fs → List.lookup "error" fs = some e →
        (handleData C st (.ok req)).1 = [.write (.err e), .close]) ∧
    (∀ (C : Collab) (st : BridgeState) (s : String) (fs : List (String × JValue)) (e : JValue),
        C.hostEval (evalPreprocess s) = .ok (.obj fs) →
        List.lookup "error" fs = some e →
        (handleData C st (.ok ⟨"eval", some [("code", .str s)]⟩)).1 =
          [.write (.err e), .close]) := by
  have hmain : ∀ (C : Collab) (st : BridgeState) (req : Request) (v : JValue)
      (st2 : BridgeState) (fs : List (String × JValue)) (e : JValue),
      executeCommand C (stAfterInputLog st req) req = .ok (v, st2) →
      v = .obj fs → List.lookup "error" fs = some e →
      (handleData C st (.ok req)).1 = [.write (.err e), .close] := by
    intro C st req v st2 fs e hexec hv hlook
    subst hv
    simp only [handleData]
    rw [hexec]
    simp [respOf, hlook]
  refine ⟨hmain, ?_⟩
  intro C st s fs e hhost hlook
  have hexec : executeCommand C (stAfterInputLog st ⟨"eval", some [("code", .str s)]⟩)
      ⟨"eval", some [("code", .str s)]⟩ =
      .ok (.obj fs, stAfterInputLog st ⟨"eval", some [("code", .str s)]⟩) := by
    simp [executeCommand, List.lookup, hhost, Except.map]
  exact hmain C st ⟨"eval", some [("code", .str s)]⟩ (.obj fs)
    (stAfterInputLog st ⟨"eval", some [("code", .str s)]⟩) fs e hexec rfl hlook

theorem error_shape_classification_witness :
    collabErrObj.hostEval (evalPreprocess "40+2") = .ok (.obj [("error", .str "label not found")]) ∧
    List.lookup "error" [("error", JValue.str "label not found")] = some (.str "label not found") ∧
    (handleData collabErrObj ⟨[], []⟩ (.ok ⟨"eval", some [("code", .str "40+2")]⟩)).1 =
      [.write (.err (.str "label not found")), .close] :=
  ⟨rfl, rfl,
   error_shape_classification.2 collabErrObj ⟨[], []⟩ "40+2"
     [("error", .str "label not found")] (.str "label not found") rfl rfl⟩
